import Mathlib

/-!
Verification model of the talli-darts scoring and tournament engines.

The definitions below are a shallow embedding of the TypeScript source:

* the 301/501 match scoring state machine of the play page
  (`submitScore`, `handleUndo`, `handleBust`, `confirmLegWin`,
  `handleDartInput`, `handleSaveEditThrow`, `isOnDouble`, `getDartScore`),
* the tournament engine of `src/lib/tournament-data.ts`
  (`generateCupBracket`, `processWalkovers`, `updateGroupMatch`).

JavaScript numbers are modelled as `Int` (all arithmetic in the source is
integer arithmetic), arrays as `List`, `null`/`undefined` as `Option`, and
the React `setState` calls as pure state transformers.  Handlers return
`Option` of the new state: `none` models an out-of-range array access
(which would crash in JS) or an early `return false`; `some st` with the
input state models the guard branches that return without touching state.
The random `generateId` strings of the tournament code are not part of the
model for bracket matches (no claim depends on them); groups and group
matches keep their `id` field as plain data because `updateGroupMatch`
looks entities up by id.  The stable JavaScript `Array.prototype.sort` is
modelled by `List.insertionSort`, which is likewise stable.
-/

/-- Multiplier of one dart in dart-by-dart input mode. -/
inductive DartMultiplier where
  | single
  | double
  | treble
  | bull
  | outer
deriving DecidableEq, Repr

/-- One dart in dart-by-dart input mode (source interface `DartThrow`). -/
structure DartThrow where
  multiplier : DartMultiplier
  value : Int
  score : Int
deriving DecidableEq, Repr

/-- Input mode of the scoring page: whole-visit totals or dart by dart. -/
inductive InputMode where
  | round
  | dart
deriving DecidableEq, Repr

/-- Per-player match state (source interface `GamePlayer`). -/
structure GamePlayer where
  id : String
  name : String
  elo : Int
  remaining : Int
  legsWon : Int
  throws : List Int
  lastScore : Option Int
  oneEighties : Int
  haminas : Int
  sixtyPlus : Int
  eightyPlus : Int
  hundredPlus : Int
  doubleAttempts : Int
  doubleHits : Int
  legFirst9Total : Int
  legFirst9Visits : Int
  allFirst9Totals : List Int
deriving DecidableEq, Repr

/-- Pending leg-win confirmation record. -/
structure PendingLegWin where
  winnerIndex : Nat
  winnerName : String
deriving DecidableEq, Repr

/-- Match state (source interface `GameState`; persistence-only fields such
as `isRanked`, `eloChanges`, `startedAt`, `matchSaved` are omitted, they are
never read by the modelled handlers). -/
structure GameState where
  players : List GamePlayer
  currentPlayerIndex : Nat
  startingScore : Int
  legsToWin : Int
  currentScore : String
  gameOver : Bool
  matchWinner : Option String
  pendingLegWin : Option PendingLegWin
  currentLeg : Nat
  matchHighestCheckout : Int
  playerHighestCheckouts : List Int
  inputMode : InputMode
  currentDarts : List DartThrow
  selectedMultiplier : DartMultiplier
deriving DecidableEq, Repr

/-- One-slot undo buffer (source `lastAction` component state). -/
structure LastAction where
  playerIndex : Nat
  score : Int
  remaining : Int
  lastScore : Option Int
deriving DecidableEq, Repr

/-- Pending double-attempts popup (source `pendingDoubleAttempts` state). -/
structure PendingDA where
  playerIndex : Nat
  wasCheckout : Bool
  score : Int
  previousRemaining : Int
deriving DecidableEq, Repr

/-- The component state the scoring handlers read and write. -/
structure AppState where
  game : GameState
  lastAction : Option LastAction
  pendingDoubleAttempts : Option PendingDA
deriving DecidableEq, Repr

/-- Source `isOnDouble`: even numbers 2 to 40, or 50 (bull). -/
def isOnDouble (remaining : Int) : Bool :=
  if remaining = 50 then true
  else if 2 ≤ remaining ∧ remaining ≤ 40 ∧ remaining % 2 = 0 then true
  else false

/-- Source `getDartScore`. -/
def getDartScore (multiplier : DartMultiplier) (value : Int) : Int :=
  match multiplier with
  | .single => value
  | .double => value * 2
  | .treble => value * 3
  | .bull => 50
  | .outer => 25

/-- Source `submitScore(scoreValue, doubleAttempts?, doubleHits?)`.
The optional JS arguments are `Option Int`; `doubleAttempts || 0` is
`Option.getD 0`. -/
def submitScore (st : AppState) (scoreValue : Int)
    (dblAtt dblHit : Option Int) : Option AppState :=
  let g := st.game
  if g.gameOver = true ∨ g.pendingLegWin.isSome = true ∨
      st.pendingDoubleAttempts.isSome = true then some st
  else
    match g.players[g.currentPlayerIndex]? with
    | none => none
    | some currentPlayer =>
      let remaining := currentPlayer.remaining
      let newRemaining := remaining - scoreValue
      if dblAtt = none ∧ isOnDouble remaining = true ∧ g.inputMode = .round then
        some { st with pendingDoubleAttempts := some {
            playerIndex := g.currentPlayerIndex
            wasCheckout := decide (newRemaining = 0)
            score := scoreValue
            previousRemaining := remaining } }
      else if newRemaining < 0 ∨ newRemaining = 1 then
        -- bust branch
        if dblAtt = none ∧ isOnDouble remaining = true ∧ g.inputMode = .round then
          some { st with pendingDoubleAttempts := some {
              playerIndex := g.currentPlayerIndex
              wasCheckout := false
              score := -1
              previousRemaining := remaining } }
        else
          let p1 := { currentPlayer with
            lastScore := none
            doubleAttempts := currentPlayer.doubleAttempts + dblAtt.getD 0 }
          some { st with game := { g with
            players := g.players.set g.currentPlayerIndex p1
            currentPlayerIndex := (g.currentPlayerIndex + 1) % g.players.length
            currentScore := "" } }
      else
        let la : LastAction :=
          { playerIndex := g.currentPlayerIndex
            score := scoreValue
            remaining := remaining
            lastScore := currentPlayer.lastScore }
        let isFirst9 : Bool := decide (currentPlayer.legFirst9Visits < 3)
        let p1 := { currentPlayer with
          throws := currentPlayer.throws ++ [scoreValue]
          lastScore := some scoreValue
          oneEighties := currentPlayer.oneEighties +
            (if scoreValue = 180 then 1 else 0)
          haminas := currentPlayer.haminas + (if scoreValue = 26 then 1 else 0)
          sixtyPlus := currentPlayer.sixtyPlus +
            (if 60 ≤ scoreValue then 1 else 0)
          eightyPlus := currentPlayer.eightyPlus +
            (if 80 ≤ scoreValue then 1 else 0)
          hundredPlus := currentPlayer.hundredPlus +
            (if 100 ≤ scoreValue then 1 else 0)
          doubleAttempts := currentPlayer.doubleAttempts + dblAtt.getD 0
          doubleHits := currentPlayer.doubleHits + dblHit.getD 0
          legFirst9Total :=
            if isFirst9 = true then currentPlayer.legFirst9Total + scoreValue
            else currentPlayer.legFirst9Total
          legFirst9Visits :=
            if isFirst9 = true then currentPlayer.legFirst9Visits + 1
            else currentPlayer.legFirst9Visits }
        if newRemaining = 0 then
          let p2 := { p1 with remaining := 0 }
          some { st with
            lastAction := some la
            game := { g with
              players := g.players.set g.currentPlayerIndex p2
              currentScore := ""
              pendingLegWin := some
                { winnerIndex := g.currentPlayerIndex, winnerName := p2.name } } }
        else
          let p2 := { p1 with remaining := newRemaining }
          some { st with
            lastAction := some la
            game := { g with
              players := g.players.set g.currentPlayerIndex p2
              currentPlayerIndex := (g.currentPlayerIndex + 1) % g.players.length
              currentScore := "" } }

/-- Source `handleUndo`.  The JS read `throws[throws.length - 1]` yields
`undefined` on an empty array, in which case every comparison against it is
false; this is the `none` case of `getLast?`. -/
def handleUndo (st : AppState) : Option AppState :=
  match st.lastAction with
  | none => some st
  | some la =>
    if st.game.pendingLegWin.isSome = true then some st
    else
      match st.game.players[la.playerIndex]? with
      | none => none
      | some undoPlayer =>
        let dec : (Int → Bool) → Int :=
          fun p => match undoPlayer.throws.getLast? with
            | some t => if p t = true then 1 else 0
            | none => 0
        let p1 := { undoPlayer with
          remaining := la.remaining
          throws := undoPlayer.throws.dropLast
          lastScore := la.lastScore
          oneEighties := undoPlayer.oneEighties - dec (fun t => decide (t = 180))
          haminas := undoPlayer.haminas - dec (fun t => decide (t = 26))
          sixtyPlus := undoPlayer.sixtyPlus - dec (fun t => decide (60 ≤ t))
          eightyPlus := undoPlayer.eightyPlus - dec (fun t => decide (80 ≤ t))
          hundredPlus := undoPlayer.hundredPlus - dec (fun t => decide (100 ≤ t)) }
        some { st with
          lastAction := none
          game := { st.game with
            players := st.game.players.set la.playerIndex p1
            currentPlayerIndex := la.playerIndex
            currentScore := "" } }

/-- Source `handleBust(doubleAttempts?)`: record a zero-score visit for the
current player and advance the turn. -/
def handleBust (st : AppState) (dblAtt : Option Int) : Option AppState :=
  let g := st.game
  if g.gameOver = true ∨ g.pendingLegWin.isSome = true ∨
      st.pendingDoubleAttempts.isSome = true then some st
  else
    match g.players[g.currentPlayerIndex]? with
    | none => none
    | some currentPlayer =>
      if dblAtt = none ∧ isOnDouble currentPlayer.remaining = true ∧
          g.inputMode = .round then
        some { st with pendingDoubleAttempts := some {
            playerIndex := g.currentPlayerIndex
            wasCheckout := false
            score := -1
            previousRemaining := currentPlayer.remaining } }
      else
        let la : LastAction :=
          { playerIndex := g.currentPlayerIndex
            score := 0
            remaining := currentPlayer.remaining
            lastScore := currentPlayer.lastScore }
        let isFirst9 : Bool := decide (currentPlayer.legFirst9Visits < 3)
        let p1 := { currentPlayer with
          throws := currentPlayer.throws ++ [0]
          lastScore := some 0
          doubleAttempts := currentPlayer.doubleAttempts + dblAtt.getD 0
          legFirst9Visits :=
            if isFirst9 = true then currentPlayer.legFirst9Visits + 1
            else currentPlayer.legFirst9Visits }
        some { st with
          lastAction := some la
          game := { g with
            players := g.players.set g.currentPlayerIndex p1
            currentPlayerIndex := (g.currentPlayerIndex + 1) % g.players.length
            currentScore := "" } }

/-- Source `confirmLegWin`.  The persistence calls (`saveMatchResult`,
`savePracticeMatch`) are external effects and not part of the state model. -/
def confirmLegWin (st : AppState) : Option AppState :=
  let g := st.game
  match g.pendingLegWin with
  | none => some st
  | some plw =>
    let winnerIndex := plw.winnerIndex
    match g.players[winnerIndex]?, g.playerHighestCheckouts[winnerIndex]? with
    | some wp, some prevHigh =>
      let newLegsWon := wp.legsWon + 1
      let legCheckout := wp.lastScore.getD 0
      let newHighestCheckout := max g.matchHighestCheckout legCheckout
      let newPlayerHighestCheckouts :=
        g.playerHighestCheckouts.set winnerIndex (max prevHigh legCheckout)
      if g.legsToWin ≤ newLegsWon then
        let newPlayers := g.players.mapIdx fun i p =>
          { p with
            remaining := if i = winnerIndex then 0 else p.remaining
            legsWon := if i = winnerIndex then newLegsWon else p.legsWon
            allFirst9Totals := p.allFirst9Totals ++ [p.legFirst9Total] }
        some { st with game := { g with
          players := newPlayers
          currentScore := ""
          gameOver := true
          matchWinner := some plw.winnerName
          pendingLegWin := none
          matchHighestCheckout := newHighestCheckout
          playerHighestCheckouts := newPlayerHighestCheckouts } }
      else
        let nextLeg := g.currentLeg + 1
        let nextStarter := (nextLeg - 1) % g.players.length
        let newPlayers := g.players.mapIdx fun i p =>
          { p with
            remaining := g.startingScore
            throws := []
            lastScore := none
            legsWon := if i = winnerIndex then newLegsWon else p.legsWon
            allFirst9Totals := p.allFirst9Totals ++ [p.legFirst9Total]
            legFirst9Total := 0
            legFirst9Visits := 0 }
        some { st with
          lastAction := none
          game := { g with
            players := newPlayers
            currentPlayerIndex := nextStarter
            currentScore := ""
            pendingLegWin := none
            currentLeg := nextLeg
            matchHighestCheckout := newHighestCheckout
            playerHighestCheckouts := newPlayerHighestCheckouts } }
    | _, _ => none

/-- The dart constructed by `handleDartInput` for a given numeric input:
50 is the bull, 25 the outer bull, anything else uses the selected
multiplier. -/
def mkDart (g : GameState) (value : Int) : DartThrow :=
  if value = 50 then { multiplier := .bull, value := 50, score := 50 }
  else if value = 25 then { multiplier := .outer, value := 25, score := 25 }
  else
    { multiplier := g.selectedMultiplier
      value := value
      score := getDartScore g.selectedMultiplier value }

/-- Source `handleDartInput(value)` (dart-by-dart mode). -/
def handleDartInput (st : AppState) (value : Int) : Option AppState :=
  let g := st.game
  if g.gameOver = true ∨ g.pendingLegWin.isSome = true then some st
  else if 3 ≤ g.currentDarts.length then some st
  else
    let newDart := mkDart g value
    let newDarts := g.currentDarts ++ [newDart]
    let total := (newDarts.map (fun d => d.score)).sum
    match g.players[g.currentPlayerIndex]? with
    | none => none
    | some currentPlayer =>
      let newRemaining := currentPlayer.remaining - total
      if newRemaining < 0 ∨ newRemaining = 1 then some st
      else if newRemaining = 0 ∧ newDart.multiplier ≠ .double ∧
          newDart.multiplier ≠ .bull then some st
      else some { st with game := { g with currentDarts := newDarts } }

/-- The `editingThrow` component state driving the edit-throw dialog. -/
structure EditingThrow where
  playerIndex : Nat
  throwIndex : Nat
  currentValue : Int
deriving DecidableEq, Repr

/-- Source `handleSaveEditThrow`: rewrite one recorded throw and rebuild
the affected player's remaining and 180/26 counters from the throw list. -/
def handleSaveEditThrow (st : AppState) (editing : Option EditingThrow)
    (newValue : Int) : Option AppState :=
  match editing with
  | none => some st
  | some e =>
    if newValue < 0 ∨ 180 < newValue then some st
    else
      let g := st.game
      match g.players[e.playerIndex]? with
      | none => none
      | some player =>
        let newThrows := player.throws.set e.throwIndex newValue
        let totalThrown := newThrows.sum
        let p1 := { player with
          throws := newThrows
          remaining := g.startingScore - totalThrown
          oneEighties := ((newThrows.filter (fun t => decide (t = 180))).length : Int)
          haminas := ((newThrows.filter (fun t => decide (t = 26))).length : Int) }
        let p2 :=
          if e.throwIndex = newThrows.length - 1 then
            { p1 with lastScore := some newValue }
          else p1
        some { st with game :=
          { g with players := g.players.set e.playerIndex p2 } }

/-- Status of a bracket or group match. -/
inductive MatchStatus where
  | pending
  | ready
  | walkover
  | completed
deriving DecidableEq, Repr

/-- Regular bracket match or the bronze (third-place) match. -/
inductive MatchType where
  | regular
  | bronze
deriving DecidableEq, Repr

/-- A populated player slot of a bracket match (`{id, name, seed?}`). -/
structure BracketSlot where
  id : String
  name : String
  seed : Option Nat
deriving DecidableEq, Repr

/-- A match score in legs. -/
structure LegScore where
  player1Legs : Int
  player2Legs : Int
deriving DecidableEq, Repr

/-- One knockout bracket match (source `BracketMatch`; the random `id` and
the `matchId` link are not part of the model). -/
structure BracketMatch where
  round : Nat
  position : Nat
  matchType : MatchType
  player1 : Option BracketSlot
  player2 : Option BracketSlot
  winnerId : Option String
  score : Option LegScore
  legsToWin : Int
  status : MatchStatus
deriving DecidableEq, Repr

instance : Inhabited BracketMatch :=
  ⟨{ round := 0, position := 0, matchType := .regular, player1 := none
     player2 := none, winnerId := none, score := none, legsToWin := 0
     status := .pending }⟩

/-- A player record as consumed by the tournament generator. -/
structure Player where
  id : String
  name : String
  elo301 : Int
  elo501 : Int
deriving DecidableEq, Repr

/-- Per-round best-of configuration. -/
structure LegsConfig where
  groupStage : Int
  quarterfinal : Int
  semifinal : Int
  final : Int
  bronze : Int
deriving DecidableEq, Repr

/-- Game mode of a tournament. -/
inductive GameMode where
  | m301
  | m501
deriving DecidableEq, Repr

/-- The rating used for seeding in the given mode. -/
def eloOf (gameMode : GameMode) (p : Player) : Int :=
  match gameMode with
  | .m301 => p.elo301
  | .m501 => p.elo501

/-- Source sort `(a, b) => eloB - eloA`: stable descending sort by the
mode-specific rating; `Array.prototype.sort` is stable, as is
`List.insertionSort`. -/
def sortByEloDesc (gameMode : GameMode) (players : List Player) : List Player :=
  players.insertionSort (fun a b => eloOf gameMode b ≤ eloOf gameMode a)

/-- Structural version of `Math.log2` on the naturals (the source only
applies it to the powers of two 4, 8, 16). -/
def log2Aux : Nat → Nat → Nat
  | 0, _ => 0
  | fuel + 1, n => if n < 2 then 0 else log2Aux fuel (n / 2) + 1

/-- `Math.log2 n` for the bracket sizes in use. -/
def log2Nat (n : Nat) : Nat := log2Aux n n

/-- The fixed seeding pattern table (`seedingPatterns`). -/
def seedingPattern (bracketSize : Nat) : List (Nat × Nat) :=
  if bracketSize = 4 then [(1, 4), (2, 3)]
  else if bracketSize = 8 then [(1, 8), (4, 5), (3, 6), (2, 7)]
  else if bracketSize = 16 then
    [(1, 16), (8, 9), (5, 12), (4, 13), (3, 14), (6, 11), (7, 10), (2, 15)]
  else []

/-- Source seed assignment: seat `i` holds the sorted player at index `i`
(or a bye) with seed number `i + 1`. -/
def seedList (sorted : List Player) (bracketSize : Nat) :
    List (Option Player × Nat) :=
  (List.range bracketSize).map fun i => (sorted[i]?, i + 1)

/-- Source `seeds.find((s) => s.seed === n)!`.  The fallback is never hit
when `1 ≤ n ≤ bracketSize`, which holds for every seeding-pattern entry;
a missing seed stands for the `!` assertion and yields an empty seat. -/
def findSeed (seeds : List (Option Player × Nat)) (n : Nat) :
    Option Player × Nat :=
  (seeds.find? (fun s => s.2 = n)).getD (none, n)

/-- First-round matches built from the seeding pattern. -/
def firstRoundMatches (seeds : List (Option Player × Nat))
    (bracketSize : Nat) (legsConfig : LegsConfig) : List BracketMatch :=
  let totalRounds := log2Nat bracketSize
  let legsToWin :=
    if totalRounds = 2 then legsConfig.semifinal
    else if totalRounds = 3 then legsConfig.quarterfinal
    else legsConfig.quarterfinal
  ((seedingPattern bracketSize).enum).map fun mi =>
    let seed1 := findSeed seeds mi.2.1
    let seed2 := findSeed seeds mi.2.2
    let isWalkover : Bool := seed1.1.isNone || seed2.1.isNone
    let walkoverWinner : Option Player := seed1.1 <|> seed2.1
    { round := 1
      position := mi.1
      matchType := .regular
      player1 := seed1.1.map fun p => { id := p.id, name := p.name, seed := some seed1.2 }
      player2 := seed2.1.map fun p => { id := p.id, name := p.name, seed := some seed2.2 }
      winnerId :=
        if isWalkover = true then walkoverWinner.map fun p => p.id else none
      score :=
        if isWalkover = true then some { player1Legs := 0, player2Legs := 0 }
        else none
      legsToWin := legsToWin
      status :=
        if isWalkover = true then .walkover
        else if seed1.1.isSome && seed2.1.isSome then .ready
        else .pending }

/-- Empty matches of rounds 2 and later. -/
def laterRoundMatches (bracketSize : Nat) (legsConfig : LegsConfig) :
    List BracketMatch :=
  let totalRounds := log2Nat bracketSize
  (List.range' 2 (totalRounds - 1)).flatMap fun round =>
    let matchesInRound := bracketSize / 2 ^ round
    let legsToWin :=
      if round = totalRounds then legsConfig.final
      else if round = totalRounds - 1 then legsConfig.semifinal
      else legsConfig.quarterfinal
    (List.range matchesInRound).map fun pos =>
      { round := round
        position := pos
        matchType := .regular
        player1 := none
        player2 := none
        winnerId := none
        score := none
        legsToWin := legsToWin
        status := .pending }

/-- The bronze match appended when enabled. -/
def bronzeMatches (bracketSize : Nat) (legsConfig : LegsConfig)
    (bronzeMatchEnabled : Bool) : List BracketMatch :=
  if bronzeMatchEnabled = true then
    [{ round := log2Nat bracketSize
       position := 1
       matchType := .bronze
       player1 := none
       player2 := none
       winnerId := none
       score := none
       legsToWin := legsConfig.bronze
       status := .pending }]
  else []

/-- The match list of `generateCupBracket` before the walkover cascade. -/
def makeCupMatches (players : List Player) (bracketSize : Nat)
    (legsConfig : LegsConfig) (bronzeMatchEnabled : Bool)
    (gameMode : GameMode) : List BracketMatch :=
  let sorted := sortByEloDesc gameMode players
  let seeds := seedList sorted bracketSize
  firstRoundMatches seeds bracketSize legsConfig ++
    laterRoundMatches bracketSize legsConfig ++
    bronzeMatches bracketSize legsConfig bronzeMatchEnabled

/-- One body execution of the inner `for (const match of updated)` loop of
`processWalkovers`, at index `i` of the current list, threading the
`changed` flag. -/
def woStep (ms : List BracketMatch) (i : Nat) (changed : Bool) :
    List BracketMatch × Bool :=
  match ms[i]? with
  | none => (ms, changed)
  | some m =>
    match m.winnerId with
    | none => (ms, changed)
    | some wid =>
      if m.status = .walkover then
        let nextRound := m.round + 1
        let nextPosition := m.position / 2
        let isPlayer1 : Bool := decide (m.position % 2 = 0)
        match ms.findIdx? (fun mm => decide (mm.round = nextRound ∧
            mm.position = nextPosition ∧ mm.matchType = .regular)) with
        | none => (ms, changed)
        | some j =>
          let nextMatch := ms.getD j default
          let winner : Option BracketSlot :=
            if m.player1.map (fun p => p.id) = some wid then m.player1
            else m.player2
          match winner with
          | none => (ms, changed)
          | some w =>
            let step1 : BracketMatch × Bool :=
              if isPlayer1 = true ∧ nextMatch.player1 = none then
                ({ nextMatch with player1 := some w }, true)
              else if isPlayer1 = false ∧ nextMatch.player2 = none then
                ({ nextMatch with player2 := some w }, true)
              else (nextMatch, changed)
            let step2 : BracketMatch × Bool :=
              if step1.1.player1.isSome = true ∧ step1.1.player2.isSome = true ∧
                  step1.1.status = .pending then
                ({ step1.1 with status := .ready }, true)
              else step1
            (ms.set j step2.1, step2.2)
      else (ms, changed)

/-- One full scan of the match list (one iteration of the `while` loop). -/
def onePass (ms : List BracketMatch) : List BracketMatch × Bool :=
  (List.range ms.length).foldl (fun acc i => woStep acc.1 i acc.2) (ms, false)

/-- The `while (changed)` loop with explicit fuel; `processWalkovers`
supplies enough fuel for the fixed point to be reached (proved below). -/
def woIter : Nat → List BracketMatch → List BracketMatch
  | 0, ms => ms
  | fuel + 1, ms =>
    let pass := onePass ms
    if pass.2 = true then woIter fuel pass.1 else pass.1

/-- Source `processWalkovers`. -/
def processWalkovers (ms : List BracketMatch) : List BracketMatch :=
  woIter (3 * ms.length + 1) ms

/-- Source `generateCupBracket`. -/
def generateCupBracket (players : List Player) (bracketSize : Nat)
    (legsConfig : LegsConfig) (bronzeMatchEnabled : Bool)
    (gameMode : GameMode) : List BracketMatch :=
  processWalkovers
    (makeCupMatches players bracketSize legsConfig bronzeMatchEnabled gameMode)

/-- Standing row of one player inside a group (source `GroupPlayer`). -/
structure GroupPlayer where
  id : String
  name : String
  played : Int
  won : Int
  lost : Int
  legsFor : Int
  legsAgainst : Int
  points : Int
deriving DecidableEq, Repr

/-- One round-robin fixture inside a group (source `GroupMatch`). -/
structure GroupMatch where
  id : String
  player1Id : String
  player2Id : String
  player1Name : String
  player2Name : String
  winnerId : Option String
  score : Option LegScore
  status : MatchStatus
deriving DecidableEq, Repr

/-- One group (source `TournamentGroup`). -/
structure TournamentGroup where
  id : String
  name : String
  players : List GroupPlayer
  «matches» : List GroupMatch
deriving DecidableEq, Repr

/-- Tournament lifecycle status. -/
inductive TournamentStatus where
  | group_stage
  | knockout
  | completed
deriving DecidableEq, Repr

/-- The tournament fields read and written by `updateGroupMatch`. -/
structure Tournament where
  groupCount : Option Nat
  status : TournamentStatus
  groups : Option (List TournamentGroup)
  bracket : Option (List BracketMatch)
deriving DecidableEq, Repr

/-- The group-standings comparator `(a, b) => points desc, then leg
differential desc`, as the order relation of a stable sort: `a` stays
before `b` when the comparator does not order `b` strictly first. -/
def standingsLE (a b : GroupPlayer) : Prop :=
  if a.points = b.points then
    b.legsFor - b.legsAgainst ≤ a.legsFor - a.legsAgainst
  else b.points ≤ a.points

instance : DecidableRel standingsLE := fun a b => by
  unfold standingsLE
  exact inferInstance

/-- Source `[...group.players].sort(comparator)` for group standings. -/
def sortStandings (ps : List GroupPlayer) : List GroupPlayer :=
  ps.insertionSort standingsLE

/-- Updating one semifinal slot pair: source `findIndex` on
`(round, position)` followed by an in-place update; a missing index leaves
the bracket untouched. -/
def setSF (br : List BracketMatch) (pos : Nat) (p1 p2 : BracketSlot) :
    List BracketMatch :=
  match br.findIdx? (fun m => decide (m.round = 1 ∧ m.position = pos)) with
  | none => br
  | some k =>
    match br[k]? with
    | none => br
    | some m =>
      br.set k { m with player1 := some p1, player2 := some p2, status := .ready }

/-- The standings update applied to both participants of a completed group
match (source body of `updatedGroup.players = group.players.map(...)`). -/
def applyStandings (m : GroupMatch) (winnerId : String) (score : LegScore)
    (ps : List GroupPlayer) : List GroupPlayer :=
  ps.map fun p =>
    if p.id = m.player1Id then
      let isWinner : Bool := decide (winnerId = m.player1Id)
      { p with
        played := p.played + 1
        won := p.won + (if isWinner = true then 1 else 0)
        lost := p.lost + (if isWinner = true then 0 else 1)
        legsFor := p.legsFor + score.player1Legs
        legsAgainst := p.legsAgainst + score.player2Legs
        points := p.points + (if isWinner = true then 2 else 0) }
    else if p.id = m.player2Id then
      let isWinner : Bool := decide (winnerId = m.player2Id)
      { p with
        played := p.played + 1
        won := p.won + (if isWinner = true then 1 else 0)
        lost := p.lost + (if isWinner = true then 0 else 1)
        legsFor := p.legsFor + score.player2Legs
        legsAgainst := p.legsAgainst + score.player1Legs
        points := p.points + (if isWinner = true then 2 else 0) }
    else p

/-- A bracket slot `{id, name}` built from a standing row (no seed). -/
def slotOf (p : GroupPlayer) : BracketSlot :=
  { id := p.id, name := p.name, seed := none }

/-- The completed-match write and standings update of `updateGroupMatch`:
the updated `groups` array before the completion check. -/
def applyGroupUpdate (groups : List TournamentGroup) (groupIndex matchIndex : Nat)
    (group : TournamentGroup) (m : GroupMatch) (winnerId : String)
    (score : LegScore) : List TournamentGroup :=
  groups.set groupIndex
    { group with
      «matches» := group.«matches».set matchIndex
        { m with winnerId := some winnerId, score := some score
                 status := .completed }
      players := applyStandings m winnerId score group.players }

/-- Source `updateGroupMatch` without the persistence layer: the pure state
transformation on the tournament record.  `none` models the early
`return false` paths and the JS crashes on missing standings rows. -/
def updateGroupMatchPure (t : Tournament) (groupId matchId : String)
    (winnerId : String) (score : LegScore) : Option Tournament :=
  match t.groups with
  | none => none
  | some groups =>
    match groups.findIdx? (fun g => decide (g.id = groupId)) with
    | none => none
    | some groupIndex =>
      match groups[groupIndex]? with
      | none => none
      | some group =>
        match group.«matches».findIdx? (fun m => decide (m.id = matchId)) with
        | none => none
        | some matchIndex =>
          match group.«matches»[matchIndex]? with
          | none => none
          | some m =>
            let updatedGroups :=
              applyGroupUpdate groups groupIndex matchIndex group m winnerId score
            let allGroupsComplete : Bool := updatedGroups.all fun g =>
              g.«matches».all fun mm => decide (mm.status = .completed)
            match allGroupsComplete, t.bracket with
            | true, some bracket =>
              if t.groupCount = some 2 then
                match updatedGroups[0]?, updatedGroups[1]? with
                | some groupA, some groupB =>
                  let sortedA := sortStandings groupA.players
                  let sortedB := sortStandings groupB.players
                  match sortedA[0]?, sortedA[1]?, sortedB[0]?, sortedB[1]? with
                  | some a1, some a2, some b1, some b2 =>
                    let bracket2 :=
                      setSF (setSF bracket 0 (slotOf a1) (slotOf b2))
                        1 (slotOf b1) (slotOf a2)
                    some { t with
                      groups := some updatedGroups
                      bracket := some bracket2
                      status := .knockout }
                  | _, _, _, _ => none
                | _, _ => none
              else
                match updatedGroups.mapM
                    (fun g => (sortStandings g.players)[0]?) with
                | none => none
                | some winners =>
                  match winners[0]?, winners[1]?, winners[2]?, winners[3]? with
                  | some w0, some w1, some w2, some w3 =>
                    let bracket2 :=
                      setSF (setSF bracket 0 (slotOf w0) (slotOf w1))
                        1 (slotOf w2) (slotOf w3)
                    some { t with
                      groups := some updatedGroups
                      bracket := some bracket2
                      status := .knockout }
                  | _, _, _, _ => none
            | _, _ => some { t with groups := some updatedGroups }

instance : Inhabited BracketSlot := ⟨{ id := "", name := "", seed := none }⟩

/-- Progress measure for the walkover cascade: filled slots plus
ready-status bits.  Every mutation of `woStep` (filling an empty slot,
flipping `pending` to `ready`) strictly increases it. -/
def slotWeight (m : BracketMatch) : Nat :=
  (if m.player1.isSome = true then 1 else 0) +
    (if m.player2.isSome = true then 1 else 0) +
    (if m.status = .ready then 1 else 0)

/-- Total progress measure over a match list. -/
def mu (ms : List BracketMatch) : Nat := (ms.map slotWeight).sum

/-- Players used by the concrete bracket examples, rated in descending
order so that seed `k` is the `k`-th listed player. -/
def players8 : List Player :=
  [ { id := "t1", name := "T1", elo301 := 1800, elo501 := 1800 },
    { id := "t2", name := "T2", elo301 := 1750, elo501 := 1750 },
    { id := "t3", name := "T3", elo301 := 1700, elo501 := 1700 },
    { id := "t4", name := "T4", elo301 := 1650, elo501 := 1650 },
    { id := "t5", name := "T5", elo301 := 1600, elo501 := 1600 },
    { id := "t6", name := "T6", elo301 := 1550, elo501 := 1550 },
    { id := "t7", name := "T7", elo301 := 1500, elo501 := 1500 },
    { id := "t8", name := "T8", elo301 := 1450, elo501 := 1450 } ]

/-- Three players, as selectable for a cup tournament (minimum is 3). -/
def players3 : List Player := players8.take 3

/-- Five players: an 8-bracket then has three byes. -/
def players5 : List Player := players8.take 5

/-- A legs configuration used by the concrete examples. -/
def cfgX : LegsConfig :=
  { groupStage := 1, quarterfinal := 3, semifinal := 3, final := 5, bronze := 3 }

/-- A fresh 501 player record used by the concrete scoring examples. -/
def alice : GamePlayer :=
  { id := "p1", name := "Alice", elo := 1500, remaining := 501, legsWon := 0
    throws := [], lastScore := none, oneEighties := 0, haminas := 0
    sixtyPlus := 0, eightyPlus := 0, hundredPlus := 0, doubleAttempts := 0
    doubleHits := 0, legFirst9Total := 0, legFirst9Visits := 0
    allFirst9Totals := [] }

/-- Second player of the concrete examples. -/
def bob : GamePlayer := { alice with id := "p2", name := "Bob" }

/-- A fresh two-player 501 game. -/
def baseGame : GameState :=
  { players := [alice, bob], currentPlayerIndex := 0, startingScore := 501
    legsToWin := 3, currentScore := "", gameOver := false, matchWinner := none
    pendingLegWin := none, currentLeg := 1, matchHighestCheckout := 0
    playerHighestCheckouts := [0, 0], inputMode := .round, currentDarts := []
    selectedMultiplier := .single }

/-- The fresh component state around `baseGame`. -/
def baseApp : AppState :=
  { game := baseGame, lastAction := none, pendingDoubleAttempts := none }

/-- State with the current player at 9 remaining (no double finish from 9,
so no double-attempts popup interferes). -/
def stBust : AppState :=
  { baseApp with game :=
    { baseGame with players := [{ alice with remaining := 9 }, bob] } }

/-- State with the current player sitting on double 20. -/
def stForty : AppState :=
  { baseApp with game :=
    { baseGame with players := [{ alice with remaining := 40 }, bob] } }

/-- Dart-by-dart state with the current player at 20 remaining. -/
def stDart : AppState :=
  { baseApp with game :=
    { baseGame with
      players := [{ alice with remaining := 20 }, bob]
      inputMode := .dart } }

/-- State awaiting confirmation of a leg win by the first player. -/
def stLegWin : AppState :=
  { baseApp with game :=
    { baseGame with
      players :=
        [ { alice with
            remaining := 0, throws := [180, 180, 141]
            lastScore := some 141, sixtyPlus := 3, eightyPlus := 3
            hundredPlus := 3, oneEighties := 2, legFirst9Total := 501
            legFirst9Visits := 3 },
          { bob with
            remaining := 401, throws := [100], lastScore := some 100
            hundredPlus := 1, legFirst9Total := 100, legFirst9Visits := 1 } ]
      pendingLegWin := some { winnerIndex := 0, winnerName := "Alice" } } }

/-- State with two recorded throws for the first player, used by the
edit-throw example. -/
def stEdit : AppState :=
  { baseApp with game :=
    { baseGame with players :=
      [ { alice with
          remaining := 341, throws := [60, 100]
          lastScore := some 100, sixtyPlus := 2, hundredPlus := 1
          legFirst9Total := 160, legFirst9Visits := 2 },
        bob ] } }

/-- Group A standings of the concrete round-robin example: its single
match is already completed. -/
def grpA : TournamentGroup :=
  { id := "ga", name := "Group A"
    players :=
      [ { id := "a1", name := "A1", played := 1, won := 1, lost := 0
          legsFor := 2, legsAgainst := 1, points := 2 },
        { id := "a2", name := "A2", played := 1, won := 0, lost := 1
          legsFor := 1, legsAgainst := 2, points := 0 } ]
    «matches» :=
      [ { id := "ma", player1Id := "a1", player2Id := "a2"
          player1Name := "A1", player2Name := "A2", winnerId := some "a1"
          score := some { player1Legs := 2, player2Legs := 1 }
          status := .completed } ] }

/-- Group B of the concrete round-robin example: its single match is still
to be played. -/
def grpB : TournamentGroup :=
  { id := "gb", name := "Group B"
    players :=
      [ { id := "b1", name := "B1", played := 0, won := 0, lost := 0
          legsFor := 0, legsAgainst := 0, points := 0 },
        { id := "b2", name := "B2", played := 0, won := 0, lost := 0
          legsFor := 0, legsAgainst := 0, points := 0 } ]
    «matches» :=
      [ { id := "mb", player1Id := "b1", player2Id := "b2"
          player1Name := "B1", player2Name := "B2", winnerId := none
          score := none, status := .ready } ] }

/-- Empty semifinal slot of the concrete knockout bracket. -/
def sfEmpty : BracketMatch :=
  { round := 1, position := 0, matchType := .regular, player1 := none
    player2 := none, winnerId := none, score := none, legsToWin := 3
    status := .pending }

/-- The concrete 2-group round-robin tournament at the end of its group
stage. -/
def tournRR : Tournament :=
  { groupCount := some 2, status := .group_stage
    groups := some [grpA, grpB]
    bracket := some [sfEmpty, { sfEmpty with position := 1 },
      { sfEmpty with round := 2, legsToWin := 5 }] }

theorem getElem?_some_lt {α} {l : List α} {i : Nat} {a : α}
    (h : l[i]? = some a) : i < l.length := by
  rcases List.getElem?_eq_some.mp h with ⟨h1, _⟩
  exact h1

/-- C1: submitting a visit whose value busts (remaining would go below 0
or to exactly 1) never changes any player's `remaining`; the current
player's state is either left alone (double-attempts popup) or updated
only in its `lastScore` and `doubleAttempts` fields. -/
theorem submitScore_bust_keeps_remaining
    (st : AppState) (v : Int) (dblAtt dblHit : Option Int) (cp : GamePlayer)
    (hcp : st.game.players[st.game.currentPlayerIndex]? = some cp)
    (hgo : st.game.gameOver = false)
    (hplw : st.game.pendingLegWin = none)
    (hbust : cp.remaining - v < 0 ∨ cp.remaining - v = 1) :
    ∃ st2, submitScore st v dblAtt dblHit = some st2 ∧
      ∀ j : Nat, Option.map GamePlayer.remaining st2.game.players[j]? =
        Option.map GamePlayer.remaining st.game.players[j]? := by
  unfold submitScore
  cases hpda : st.pendingDoubleAttempts with
  | some pda =>
    simp [hgo, hplw, hpda]
  | none =>
    simp only [hgo, hplw, hpda, Option.isSome_none, Option.isSome_some,
      Bool.false_eq_true, or_self, or_false, if_false, hcp]
    by_cases hpop : dblAtt = none ∧ isOnDouble cp.remaining = true ∧
        st.game.inputMode = InputMode.round
    · rw [if_pos hpop]
      exact ⟨_, rfl, fun j => rfl⟩
    · rw [if_neg hpop, if_pos hbust, if_neg hpop]
      refine ⟨_, rfl, fun j => ?_⟩
      by_cases hj : j = st.game.currentPlayerIndex
      · subst hj
        rw [List.getElem?_set_self (getElem?_some_lt hcp), hcp]
        rfl
      · rw [List.getElem?_set_ne (fun h => hj h.symm)]

/-- C1 witness: at the concrete bust state (9 remaining, visit of 20), the
current player's remaining is still 9 afterwards. -/
theorem submitScore_bust_keeps_remaining_witness :
    Option.map
      (fun s : AppState => Option.map GamePlayer.remaining s.game.players[0]?)
      (submitScore stBust 20 none none) = some (some 9) := by
  obtain ⟨st2, h1, h2⟩ := submitScore_bust_keeps_remaining stBust 20 none none
    { alice with remaining := 9 } (by rfl) (by rfl) (by rfl) (by decide)
  rw [h1]
  exact congrArg some ((h2 0).trans (by rfl))

/-- Evaluation of `handleUndo` on a state whose undo buffer is filled and
whose undone player exists: the captured remaining and last-visit values
are written back, the last throw is dropped, and the four scoring-band
counters plus the 26-counter are decremented by the last throw's
contribution. -/
theorem handleUndo_eq (st : AppState) (la : LastAction) (up : GamePlayer)
    (hla : st.lastAction = some la)
    (hplw : st.game.pendingLegWin = none)
    (hup : st.game.players[la.playerIndex]? = some up) :
    handleUndo st = some { st with
      lastAction := none
      game := { st.game with
        players := st.game.players.set la.playerIndex { up with
          remaining := la.remaining
          throws := up.throws.dropLast
          lastScore := la.lastScore
          oneEighties := up.oneEighties - (match up.throws.getLast? with
            | some t => if decide (t = 180) = true then 1 else 0
            | none => 0)
          haminas := up.haminas - (match up.throws.getLast? with
            | some t => if decide (t = 26) = true then 1 else 0
            | none => 0)
          sixtyPlus := up.sixtyPlus - (match up.throws.getLast? with
            | some t => if decide (60 ≤ t) = true then 1 else 0
            | none => 0)
          eightyPlus := up.eightyPlus - (match up.throws.getLast? with
            | some t => if decide (80 ≤ t) = true then 1 else 0
            | none => 0)
          hundredPlus := up.hundredPlus - (match up.throws.getLast? with
            | some t => if decide (100 ≤ t) = true then 1 else 0
            | none => 0) }
        currentPlayerIndex := la.playerIndex
        currentScore := "" } } := by
  unfold handleUndo
  rw [hla]
  simp only [hplw, Option.isSome_none, Bool.false_eq_true, if_false, hup]

/-- C2 (amended): undoing a just-applied legal non-checkout visit restores
the player's remaining, last-visit value, recorded throws and the
scoring-band counters (60+/80+/100+/180, and the 26-counter); the
double-attempt/double-hit counters are restored provided the visit
recorded no double attempts and no double hits, since `handleUndo` never
rolls those two fields back. -/
theorem submitScore_undo_restores
    (st : AppState) (v : Int) (dblAtt dblHit : Option Int) (cp : GamePlayer)
    (hcp : st.game.players[st.game.currentPlayerIndex]? = some cp)
    (hgo : st.game.gameOver = false)
    (hplw : st.game.pendingLegWin = none)
    (hpda : st.pendingDoubleAttempts = none)
    (hpop : ¬(dblAtt = none ∧ isOnDouble cp.remaining = true ∧
      st.game.inputMode = InputMode.round))
    (hnb : ¬(cp.remaining - v < 0 ∨ cp.remaining - v = 1))
    (hnc : ¬(cp.remaining - v = 0))
    (hda : dblAtt.getD 0 = 0) (hdh : dblHit.getD 0 = 0) :
    ∃ st1, submitScore st v dblAtt dblHit = some st1 ∧
      handleUndo st1 = some { st with
        lastAction := none
        game := { st.game with
          players := st.game.players.set st.game.currentPlayerIndex
            { cp with
              legFirst9Total :=
                if decide (cp.legFirst9Visits < 3) = true then
                  cp.legFirst9Total + v
                else cp.legFirst9Total
              legFirst9Visits :=
                if decide (cp.legFirst9Visits < 3) = true then
                  cp.legFirst9Visits + 1
                else cp.legFirst9Visits }
          currentScore := "" } } := by
  have hlt := getElem?_some_lt hcp
  have h1 : submitScore st v dblAtt dblHit = some { st with
      lastAction := some { playerIndex := st.game.currentPlayerIndex
                           score := v
                           remaining := cp.remaining
                           lastScore := cp.lastScore }
      game := { st.game with
        players := st.game.players.set st.game.currentPlayerIndex
          { cp with
            remaining := cp.remaining - v
            throws := cp.throws ++ [v]
            lastScore := some v
            oneEighties := cp.oneEighties + (if v = 180 then 1 else 0)
            haminas := cp.haminas + (if v = 26 then 1 else 0)
            sixtyPlus := cp.sixtyPlus + (if 60 ≤ v then 1 else 0)
            eightyPlus := cp.eightyPlus + (if 80 ≤ v then 1 else 0)
            hundredPlus := cp.hundredPlus + (if 100 ≤ v then 1 else 0)
            doubleAttempts := cp.doubleAttempts + dblAtt.getD 0
            doubleHits := cp.doubleHits + dblHit.getD 0
            legFirst9Total :=
              if decide (cp.legFirst9Visits < 3) = true then
                cp.legFirst9Total + v
              else cp.legFirst9Total
            legFirst9Visits :=
              if decide (cp.legFirst9Visits < 3) = true then
                cp.legFirst9Visits + 1
              else cp.legFirst9Visits }
        currentPlayerIndex :=
          (st.game.currentPlayerIndex + 1) % st.game.players.length
        currentScore := "" } } := by
    unfold submitScore
    simp only [hgo, hplw, hpda, Option.isSome_none, Option.isSome_some,
      Bool.false_eq_true, or_self, or_false, if_false, hcp]
    rw [if_neg hpop, if_neg hnb, if_neg hnc]
  refine ⟨_, h1, ?_⟩
  simp only [handleUndo, hplw, Option.isSome_none, Bool.false_eq_true,
    if_false, List.getElem?_set_self, hlt, List.length_set, List.set_set,
    List.getLast?_concat, List.dropLast_concat, decide_eq_true_eq, hda, hdh,
    add_zero, add_sub_cancel_right]

/-- C2 witness: a visit of 60 from 501 followed by undo returns the state
to its original value except the first-9 tracking fields. -/
theorem submitScore_undo_restores_witness :
    (submitScore baseApp 60 none none).bind handleUndo = some { baseApp with
      game := { baseGame with players :=
        [ { alice with legFirst9Total := 60, legFirst9Visits := 1 }, bob ] } } := by
  obtain ⟨st1, h1, h2⟩ := submitScore_undo_restores baseApp 60 none none alice
    rfl rfl rfl rfl (by decide) (by decide) (by decide) rfl rfl
  rw [h1]
  show handleUndo st1 = _
  rw [h2]
  decide

/-- C2 counterexample: from 40 remaining the player scores 20 with one
recorded double attempt; the immediate undo leaves the double-attempt
counter at 1 although it was 0 before the visit, so undo is not a full
inverse on the double counters. -/
theorem submitScore_undo_counterexample :
    ((submitScore stForty 20 (some 1) (some 0)).bind handleUndo).map
        (fun s => Option.map GamePlayer.doubleAttempts s.game.players[0]?) =
      some (some 1) ∧
    Option.map GamePlayer.doubleAttempts stForty.game.players[0]? =
      some 0 := by
  decide

/-- C4 counterexample: a busting visit entered through `submitScore`
(remaining 9, visit 20) leaves the player's throw list empty: no
zero-score visit is appended on this path, contrary to the claim. -/
theorem submitScore_bust_no_zero_visit :
    (submitScore stBust 20 none none).map
        (fun s => Option.map GamePlayer.throws s.game.players[0]?) =
      some (some []) ∧
    ¬((submitScore stBust 20 none none).map
        (fun s => Option.map GamePlayer.throws s.game.players[0]?) =
      some (some [0])) := by
  decide

/-- C4 (amended): the explicit bust handler `handleBust` appends a
zero-score visit to the throwing player's list and advances the turn
cyclically, leaving every player's remaining and legs won unchanged;
`submitScore`'s own bust branch advances the turn without appending any
visit (see the counterexample). -/
theorem handleBust_records_zero_visit
    (st : AppState) (dblAtt : Option Int) (cp : GamePlayer)
    (hcp : st.game.players[st.game.currentPlayerIndex]? = some cp)
    (hgo : st.game.gameOver = false)
    (hplw : st.game.pendingLegWin = none)
    (hpda : st.pendingDoubleAttempts = none)
    (hpop : ¬(dblAtt = none ∧ isOnDouble cp.remaining = true ∧
      st.game.inputMode = InputMode.round)) :
    ∃ st2, handleBust st dblAtt = some st2 ∧
      Option.map GamePlayer.throws
          st2.game.players[st.game.currentPlayerIndex]? =
        some (cp.throws ++ [0]) ∧
      st2.game.currentPlayerIndex =
        (st.game.currentPlayerIndex + 1) % st.game.players.length ∧
      (∀ j : Nat, Option.map GamePlayer.remaining st2.game.players[j]? =
        Option.map GamePlayer.remaining st.game.players[j]?) ∧
      (∀ j : Nat, Option.map GamePlayer.legsWon st2.game.players[j]? =
        Option.map GamePlayer.legsWon st.game.players[j]?) := by
  have hlt := getElem?_some_lt hcp
  unfold handleBust
  simp only [hgo, hplw, hpda, Option.isSome_none, Option.isSome_some,
    Bool.false_eq_true, or_self, or_false, if_false, hcp]
  rw [if_neg hpop]
  refine ⟨_, rfl, ?_, rfl, ?_, ?_⟩
  · rw [List.getElem?_set_self hlt]
    rfl
  · intro j
    by_cases hj : j = st.game.currentPlayerIndex
    · subst hj
      rw [List.getElem?_set_self hlt, hcp]
      rfl
    · rw [List.getElem?_set_ne (fun h => hj h.symm)]
  · intro j
    by_cases hj : j = st.game.currentPlayerIndex
    · subst hj
      rw [List.getElem?_set_self hlt, hcp]
      rfl
    · rw [List.getElem?_set_ne (fun h => hj h.symm)]

/-- C4 witness: pressing bust at 9 remaining records a zero visit, hands
the turn to the second player and keeps both remainings. -/
theorem handleBust_records_zero_visit_witness :
    ∃ st2, handleBust stBust none = some st2 ∧
      Option.map GamePlayer.throws st2.game.players[0]? = some [0] ∧
      st2.game.currentPlayerIndex = 1 ∧
      Option.map GamePlayer.remaining st2.game.players[0]? = some 9 := by
  obtain ⟨st2, h1, h2, h3, h4, h5⟩ := handleBust_records_zero_visit stBust none
    { alice with remaining := 9 } rfl rfl rfl rfl (by decide)
  exact ⟨st2, h1, by simpa using h2, by simpa using h3,
    (h4 0).trans (by decide)⟩

/-- C5: in dart-by-dart mode a dart that would bring the player exactly to
zero with a multiplier that is neither double nor bull is rejected: the
whole component state is returned unchanged. -/
theorem handleDartInput_rejects_nondouble_checkout
    (st : AppState) (value : Int) (cp : GamePlayer)
    (hcp : st.game.players[st.game.currentPlayerIndex]? = some cp)
    (hgo : st.game.gameOver = false)
    (hplw : st.game.pendingLegWin = none)
    (hlen : st.game.currentDarts.length < 3)
    (hrem : cp.remaining -
      ((st.game.currentDarts ++ [mkDart st.game value]).map
        (fun d => d.score)).sum = 0)
    (hd : (mkDart st.game value).multiplier ≠ DartMultiplier.double)
    (hb : (mkDart st.game value).multiplier ≠ DartMultiplier.bull) :
    handleDartInput st value = some st := by
  unfold handleDartInput
  simp only [hgo, hplw, Option.isSome_none, Bool.false_eq_true, or_self,
    if_false, hcp]
  rw [if_neg (by omega : ¬3 ≤ st.game.currentDarts.length), hrem,
    if_neg (by decide : ¬((0 : Int) < 0 ∨ (0 : Int) = 1)),
    if_pos ⟨rfl, hd, hb⟩]

/-- C5 witness: at 20 remaining, a single 20 (reaching zero without a
double) is rejected and the state is unchanged. -/
theorem handleDartInput_rejects_witness :
    handleDartInput stDart 20 = some stDart := by
  exact handleDartInput_rejects_nondouble_checkout stDart 20
    { alice with remaining := 20 } rfl rfl rfl (by decide) (by decide)
    (by decide) (by decide)

/-- C6: confirming a leg win whose new leg count is still below
`legsToWin` starts the next leg: every player is reset to the starting
score with empty throws and cleared first-9 counters, the finished leg's
first-9 total is appended to `allFirst9Totals`, the leg counter advances,
and the new starter is player `currentLeg % playerCount` (the finished
leg's number modulo the player count), a fixed rotation. -/
theorem confirmLegWin_next_leg
    (st : AppState) (plw : PendingLegWin) (wp : GamePlayer) (ph : Int)
    (hplw : st.game.pendingLegWin = some plw)
    (hwp : st.game.players[plw.winnerIndex]? = some wp)
    (hph : st.game.playerHighestCheckouts[plw.winnerIndex]? = some ph)
    (hlt : wp.legsWon + 1 < st.game.legsToWin) :
    ∃ st2, confirmLegWin st = some st2 ∧
      st2.game.currentLeg = st.game.currentLeg + 1 ∧
      st2.game.currentPlayerIndex =
        st.game.currentLeg % st.game.players.length ∧
      st2.game.pendingLegWin = none ∧
      st2.lastAction = none ∧
      ∀ j : Nat, ∀ p : GamePlayer, st.game.players[j]? = some p →
        st2.game.players[j]? = some { p with
          remaining := st.game.startingScore
          throws := []
          lastScore := none
          legsWon := if j = plw.winnerIndex then wp.legsWon + 1 else p.legsWon
          allFirst9Totals := p.allFirst9Totals ++ [p.legFirst9Total]
          legFirst9Total := 0
          legFirst9Visits := 0 } := by
  unfold confirmLegWin
  simp only [hplw, hwp, hph]
  rw [if_neg (by omega : ¬st.game.legsToWin ≤ wp.legsWon + 1)]
  refine ⟨_, rfl, rfl, by simp, rfl, rfl, ?_⟩
  intro j p hp
  rw [List.getElem?_mapIdx, hp]
  rfl

/-- C6 witness: after Alice's first-leg win is confirmed in a
best-of-five, leg 2 starts with Bob (index `1 % 2`), both players back at
501 with cleared per-leg counters and their first-9 totals archived. -/
theorem confirmLegWin_next_leg_witness :
    ∃ st2, confirmLegWin stLegWin = some st2 ∧
      st2.game.currentLeg = 2 ∧
      st2.game.currentPlayerIndex = 1 ∧
      Option.map GamePlayer.remaining st2.game.players[0]? = some 501 ∧
      Option.map GamePlayer.remaining st2.game.players[1]? = some 501 ∧
      Option.map GamePlayer.legsWon st2.game.players[0]? = some 1 ∧
      Option.map GamePlayer.allFirst9Totals st2.game.players[0]? =
        some [501] := by
  obtain ⟨st2, h1, h2, h3, h4, h5, h6⟩ :=
    confirmLegWin_next_leg stLegWin { winnerIndex := 0, winnerName := "Alice" }
      (stLegWin.game.players.getD 0 alice) 0 rfl rfl rfl (by decide)
  refine ⟨st2, h1, h2, by simpa using h3, ?_, ?_, ?_, ?_⟩
  · rw [h6 0 _ rfl]
    rfl
  · rw [h6 1 _ rfl]
    rfl
  · rw [h6 0 _ rfl]
    decide
  · rw [h6 0 _ rfl]
    rfl

/-- C10: saving an edited throw value `v` (0..180) rewrites that throw,
recomputes the player's remaining as the starting score minus the sum of
the updated throw list and recounts the 180s and 26s from the list, while
the scoring-band counters, double counters and first-9 data keep their
previous values; every other player is untouched. -/
theorem handleSaveEditThrow_recomputes
    (st : AppState) (e : EditingThrow) (v : Int) (p : GamePlayer)
    (hp : st.game.players[e.playerIndex]? = some p)
    (_hti : e.throwIndex < p.throws.length)
    (h0 : 0 ≤ v) (h180 : v ≤ 180) :
    ∃ st2, handleSaveEditThrow st (some e) v = some st2 ∧
      (∃ p2 : GamePlayer, st2.game.players[e.playerIndex]? = some p2 ∧
        p2.throws = p.throws.set e.throwIndex v ∧
        p2.remaining = st.game.startingScore - p2.throws.sum ∧
        p2.oneEighties =
          ((p2.throws.filter (fun t => decide (t = 180))).length : Int) ∧
        p2.haminas =
          ((p2.throws.filter (fun t => decide (t = 26))).length : Int) ∧
        p2.sixtyPlus = p.sixtyPlus ∧
        p2.eightyPlus = p.eightyPlus ∧
        p2.hundredPlus = p.hundredPlus ∧
        p2.doubleAttempts = p.doubleAttempts ∧
        p2.doubleHits = p.doubleHits ∧
        p2.legFirst9Total = p.legFirst9Total ∧
        p2.legFirst9Visits = p.legFirst9Visits ∧
        p2.allFirst9Totals = p.allFirst9Totals) ∧
      ∀ j : Nat, j ≠ e.playerIndex →
        st2.game.players[j]? = st.game.players[j]? := by
  have hlt := getElem?_some_lt hp
  unfold handleSaveEditThrow
  simp only [hp]
  rw [if_neg (by omega : ¬(v < 0 ∨ 180 < v))]
  refine ⟨_, rfl, ?_, ?_⟩
  · split
    · exact ⟨_, List.getElem?_set_self hlt, rfl, rfl, rfl, rfl, rfl, rfl,
        rfl, rfl, rfl, rfl, rfl, rfl⟩
    · exact ⟨_, List.getElem?_set_self hlt, rfl, rfl, rfl, rfl, rfl, rfl,
        rfl, rfl, rfl, rfl, rfl, rfl⟩
  · intro j hj
    exact List.getElem?_set_ne (fun h => hj h.symm)

/-- C10 witness: editing the first throw (60) of `[60, 100]` to 26 leaves
remaining 375, one recorded 26, unchanged band counters, and does not
touch the second player. -/
theorem handleSaveEditThrow_recomputes_witness :
    ∃ st2, handleSaveEditThrow stEdit
        (some { playerIndex := 0, throwIndex := 0, currentValue := 60 }) 26 =
        some st2 ∧
      Option.map GamePlayer.throws st2.game.players[0]? = some [26, 100] ∧
      Option.map GamePlayer.remaining st2.game.players[0]? = some 375 ∧
      Option.map GamePlayer.haminas st2.game.players[0]? = some 1 ∧
      Option.map GamePlayer.sixtyPlus st2.game.players[0]? = some 2 ∧
      st2.game.players[1]? = some bob := by
  obtain ⟨st2, h1, ⟨p2, hp2, ht, hr, h180, h26, hs, _, _, _, _, _, _, _⟩, hf⟩ :=
    handleSaveEditThrow_recomputes stEdit
      { playerIndex := 0, throwIndex := 0, currentValue := 60 } 26
      (stEdit.game.players.getD 0 alice) rfl (by decide) (by decide) (by decide)
  refine ⟨st2, h1, ?_, ?_, ?_, ?_, ?_⟩
  · rw [hp2]
    show some p2.throws = _
    rw [ht]
    decide
  · rw [hp2]
    show some p2.remaining = _
    rw [hr, ht]
    decide
  · rw [hp2]
    show some p2.haminas = _
    rw [h26, ht]
    decide
  · rw [hp2]
    show some p2.sixtyPlus = _
    rw [hs]
    decide
  · rw [hf 1 (by decide)]
    decide

theorem slotWeight_le (m : BracketMatch) : slotWeight m ≤ 3 := by
  unfold slotWeight
  split <;> split <;> split <;> omega

theorem mu_le (ms : List BracketMatch) : mu ms ≤ 3 * ms.length := by
  induction ms with
  | nil => simp [mu]
  | cons a t ih =>
    have := slotWeight_le a
    simp only [mu, List.map_cons, List.sum_cons, List.length_cons] at ih ⊢
    omega

theorem mu_set (ms : List BracketMatch) (j : Nat) (x m : BracketMatch)
    (hj : ms[j]? = some m) :
    mu (ms.set j x) + slotWeight m = mu ms + slotWeight x := by
  induction ms generalizing j with
  | nil => simp at hj
  | cons a t ih =>
    cases j with
    | zero =>
      simp only [List.getElem?_cons_zero, Option.some.injEq] at hj
      subst hj
      simp only [List.set_cons_zero, mu, List.map_cons, List.sum_cons]
      omega
    | succ n =>
      simp only [List.getElem?_cons_succ] at hj
      have := ih n hj
      simp only [List.set_cons_succ, mu, List.map_cons, List.sum_cons] at this ⊢
      omega

theorem set_getElem?_self {α} (l : List α) (i : Nat) (a : α)
    (h : l[i]? = some a) : l.set i a = l := by
  induction l generalizing i with
  | nil => simp at h
  | cons b t ih =>
    cases i with
    | zero =>
      simp only [List.getElem?_cons_zero, Option.some.injEq] at h
      subst h
      simp
    | succ n =>
      simp only [List.getElem?_cons_succ] at h
      simp [List.set_cons_succ, ih n h]

theorem findIdx?_some_spec {α} (l : List α) (p : α → Bool) (i : Nat)
    (h : l.findIdx? p = some i) : ∃ x, l[i]? = some x ∧ p x = true := by
  rcases List.findIdx?_eq_some_iff_findIdx_eq.mp h with ⟨hl, hf⟩
  refine ⟨l[i], List.getElem?_eq_some.mpr ⟨hl, rfl⟩, ?_⟩
  subst hf
  exact List.findIdx_getElem

theorem woStep_spec (ms : List BracketMatch) (i : Nat) (ch : Bool) :
    (woStep ms i ch).1.length = ms.length ∧
    mu ms ≤ mu (woStep ms i ch).1 ∧
    ((woStep ms i ch).2 = false → (woStep ms i ch).1 = ms ∧ ch = false) ∧
    (ch = false → (woStep ms i ch).2 = true →
      mu ms + 1 ≤ mu (woStep ms i ch).1) := by
  cases hmi : ms[i]? with
  | none =>
    simp only [woStep, hmi]
    refine ⟨by simp, by simp, fun h => ⟨by simp, h⟩,
      fun h1 h2 => by subst h1; simp at h2⟩
  | some m =>
  cases hw : m.winnerId with
  | none =>
    simp only [woStep, hmi, hw]
    refine ⟨by simp, by simp, fun h => ⟨by simp, h⟩,
      fun h1 h2 => by subst h1; simp at h2⟩
  | some wid =>
  by_cases hst : m.status = MatchStatus.walkover
  case neg =>
    simp only [woStep, hmi, hw]
    rw [if_neg hst]
    refine ⟨by simp, by simp, fun h => ⟨by simp, h⟩,
      fun h1 h2 => by subst h1; simp at h2⟩
  case pos =>
  simp only [woStep, hmi, hw]
  rw [if_pos hst]
  cases hf : ms.findIdx? (fun mm => decide (mm.round = m.round + 1 ∧
      mm.position = m.position / 2 ∧ mm.matchType = MatchType.regular)) with
  | none =>
    refine ⟨by simp, by simp, fun h => ⟨by simp, h⟩,
      fun h1 h2 => by subst h1; simp at h2⟩
  | some j =>
  dsimp only
  obtain ⟨nm, hj, hpred⟩ := findIdx?_some_spec _ _ _ hf
  have hgd : ms.getD j default = nm := by
    rw [List.getD_eq_getElem?_getD, hj]
    rfl
  rw [hgd]
  cases hwin : (if m.player1.map (fun p => p.id) = some wid
      then m.player1 else m.player2) with
  | none =>
    refine ⟨by simp, by simp, fun h => ⟨by simp, h⟩,
      fun h1 h2 => by subst h1; simp at h2⟩
  | some w =>
  dsimp only
  by_cases hc1 : decide (m.position % 2 = 0) = true ∧ nm.player1 = none
  case pos =>
    rw [if_pos hc1]
    dsimp only
    by_cases hc3 : (some w).isSome = true ∧ nm.player2.isSome = true ∧
        nm.status = MatchStatus.pending
    case pos =>
      rw [if_pos hc3]
      dsimp only
      have hmu := mu_set ms j
        { nm with player1 := some w, status := MatchStatus.ready } nm hj
      simp only [slotWeight, hc1.2, hc3.2.2, Option.isSome_none,
        Option.isSome_some] at hmu
      refine ⟨by simp, ?_, by simp, fun _ _ => ?_⟩ <;>
        · simp at hmu
          omega
    case neg =>
      rw [if_neg hc3]
      dsimp only
      have hmu := mu_set ms j { nm with player1 := some w } nm hj
      simp only [slotWeight, hc1.2, Option.isSome_none,
        Option.isSome_some] at hmu
      refine ⟨by simp, ?_, by simp, fun _ _ => ?_⟩ <;>
        · simp at hmu
          omega
  case neg =>
  rw [if_neg hc1]
  by_cases hc2 : decide (m.position % 2 = 0) = false ∧ nm.player2 = none
  case pos =>
    rw [if_pos hc2]
    dsimp only
    by_cases hc3 : nm.player1.isSome = true ∧ (some w).isSome = true ∧
        nm.status = MatchStatus.pending
    case pos =>
      rw [if_pos hc3]
      dsimp only
      have hmu := mu_set ms j
        { nm with player2 := some w, status := MatchStatus.ready } nm hj
      simp only [slotWeight, hc2.2, hc3.2.2, Option.isSome_none,
        Option.isSome_some] at hmu
      refine ⟨by simp, ?_, by simp, fun _ _ => ?_⟩ <;>
        · simp at hmu
          omega
    case neg =>
      rw [if_neg hc3]
      dsimp only
      have hmu := mu_set ms j { nm with player2 := some w } nm hj
      simp only [slotWeight, hc2.2, Option.isSome_none,
        Option.isSome_some] at hmu
      refine ⟨by simp, ?_, by simp, fun _ _ => ?_⟩ <;>
        · simp at hmu
          omega
  case neg =>
    rw [if_neg hc2]
    dsimp only
    by_cases hc3 : nm.player1.isSome = true ∧ nm.player2.isSome = true ∧
        nm.status = MatchStatus.pending
    case pos =>
      rw [if_pos hc3]
      dsimp only
      have hmu := mu_set ms j { nm with status := MatchStatus.ready } nm hj
      simp only [slotWeight, hc3.2.2] at hmu
      refine ⟨by simp, ?_, by simp, fun _ _ => ?_⟩ <;>
        · simp at hmu
          omega
    case neg =>
      rw [if_neg hc3]
      dsimp only
      rw [set_getElem?_self ms j nm hj]
      refine ⟨by simp, by simp, fun h => ⟨by simp, h⟩,
        fun h1 h2 => by subst h1; simp at h2⟩

theorem foldl_woStep_spec (l : List Nat) (p : List BracketMatch × Bool) :
    (l.foldl (fun acc i => woStep acc.1 i acc.2) p).1.length = p.1.length ∧
    mu p.1 ≤ mu (l.foldl (fun acc i => woStep acc.1 i acc.2) p).1 ∧
    ((l.foldl (fun acc i => woStep acc.1 i acc.2) p).2 = false →
      (l.foldl (fun acc i => woStep acc.1 i acc.2) p).1 = p.1 ∧
        p.2 = false) ∧
    (p.2 = false →
      (l.foldl (fun acc i => woStep acc.1 i acc.2) p).2 = true →
      mu p.1 + 1 ≤ mu (l.foldl (fun acc i => woStep acc.1 i acc.2) p).1) := by
  induction l generalizing p with
  | nil =>
    simp only [List.foldl_nil]
    exact ⟨by simp, by simp, fun h => ⟨by simp, h⟩,
      fun h1 h2 => by rw [h1] at h2; exact absurd h2 (by decide)⟩
  | cons a t ih =>
    simp only [List.foldl_cons]
    obtain ⟨hl, hm, hc, hp⟩ := woStep_spec p.1 a p.2
    obtain ⟨ihl, ihm, ihc, ihp⟩ := ih (woStep p.1 a p.2)
    refine ⟨ihl.trans hl, le_trans hm ihm, ?_, ?_⟩
    · intro h
      obtain ⟨h1, h2⟩ := ihc h
      obtain ⟨h3, h4⟩ := hc h2
      exact ⟨h1.trans h3, h4⟩
    · intro hch hres
      cases hch2 : (woStep p.1 a p.2).2 with
      | true => exact le_trans (hp hch hch2) ihm
      | false =>
        obtain ⟨h3, _⟩ := hc hch2
        have h5 := ihp hch2 hres
        rw [h3] at h5
        exact h5

theorem onePass_spec (ms : List BracketMatch) :
    (onePass ms).1.length = ms.length ∧
    mu ms ≤ mu (onePass ms).1 ∧
    ((onePass ms).2 = false → (onePass ms).1 = ms) ∧
    ((onePass ms).2 = true → mu ms + 1 ≤ mu (onePass ms).1) := by
  obtain ⟨h1, h2, h3, h4⟩ :=
    foldl_woStep_spec (List.range ms.length) (ms, false)
  exact ⟨h1, h2, fun h => (h3 h).1, fun h => h4 rfl h⟩

theorem woIter_fixpoint (fuel : Nat) (ms : List BracketMatch)
    (h : 3 * ms.length < mu ms + fuel) :
    (onePass (woIter fuel ms)).2 = false := by
  induction fuel generalizing ms with
  | zero =>
    have := mu_le ms
    omega
  | succ n ih =>
    simp only [woIter]
    cases hp2 : (onePass ms).2 with
    | false =>
      simp only [Bool.false_eq_true, if_false]
      obtain ⟨_, _, h3, _⟩ := onePass_spec ms
      rw [h3 hp2]
      exact hp2
    | true =>
      rw [if_pos rfl]
      apply ih
      obtain ⟨h1, _, _, h4⟩ := onePass_spec ms
      have h5 := h4 hp2
      rw [h1]
      omega

theorem processWalkovers_fixpoint (ms : List BracketMatch) :
    (onePass (processWalkovers ms)).2 = false := by
  unfold processWalkovers
  apply woIter_fixpoint
  omega

theorem foldl_false_steps (l : List Nat) (p : List BracketMatch × Bool)
    (h : (l.foldl (fun acc i => woStep acc.1 i acc.2) p).2 = false) :
    ∀ i ∈ l, woStep p.1 i false = (p.1, false) := by
  induction l generalizing p with
  | nil =>
    intro i hi
    simp at hi
  | cons a t ih =>
    simp only [List.foldl_cons] at h
    obtain ⟨_, h2⟩ := (foldl_woStep_spec t (woStep p.1 a p.2)).2.2.1 h
    obtain ⟨h3, h4⟩ := (woStep_spec p.1 a p.2).2.2.1 h2
    intro i hi
    rcases List.mem_cons.mp hi with hh | hh
    · subst hh
      have heq : woStep p.1 i p.2 = (p.1, false) := Prod.ext_iff.mpr ⟨h3, h2⟩
      rw [h4] at heq
      exact heq
    · have := ih (woStep p.1 a p.2) h i hh
      rw [h3] at this
      exact this

theorem onePass_false_steps (ms : List BracketMatch)
    (h : (onePass ms).2 = false) :
    ∀ i : Nat, woStep ms i false = (ms, false) := by
  intro i
  by_cases hi : i < ms.length
  · exact foldl_false_steps (List.range ms.length) (ms, false) h i
      (List.mem_range.mpr hi)
  · unfold woStep
    rw [List.getElem?_eq_none (le_of_not_lt hi)]

/-- C7: the walkover cascade of `processWalkovers` terminates (with fuel
`3 * length + 1` the `while (changed)` loop provably reaches its exit
condition: one more full scan reports `changed = false`), and afterwards no
scan step can do any work: for every index, examining that match fills no
next-round slot and flips no status, so no match that a placed walkover
winner could fill is left unfilled. -/
theorem processWalkovers_terminates (ms : List BracketMatch) :
    (onePass (processWalkovers ms)).2 = false ∧
    ∀ i : Nat,
      woStep (processWalkovers ms) i false = (processWalkovers ms, false) :=
  ⟨processWalkovers_fixpoint ms,
    onePass_false_steps _ (processWalkovers_fixpoint ms)⟩

theorem woStep_shape (ms : List BracketMatch) (i : Nat) (ch : Bool) :
    (woStep ms i ch).1 = ms ∨
    ∃ j nm x, ms[j]? = some nm ∧ (woStep ms i ch).1 = ms.set j x ∧
      x.round = nm.round ∧
      ∃ m, ms[i]? = some m ∧ nm.round = m.round + 1 := by
  cases hmi : ms[i]? with
  | none =>
    left
    simp [woStep, hmi]
  | some m =>
  cases hw : m.winnerId with
  | none =>
    left
    simp [woStep, hmi, hw]
  | some wid =>
  by_cases hst : m.status = MatchStatus.walkover
  case neg =>
    left
    simp only [woStep, hmi, hw]
    rw [if_neg hst]
  case pos =>
  simp only [woStep, hmi, hw]
  rw [if_pos hst]
  cases hf : ms.findIdx? (fun mm => decide (mm.round = m.round + 1 ∧
      mm.position = m.position / 2 ∧ mm.matchType = MatchType.regular)) with
  | none =>
    left
    rfl
  | some j =>
  dsimp only
  obtain ⟨nm, hj, hpred⟩ := findIdx?_some_spec _ _ _ hf
  have hprd : nm.round = m.round + 1 ∧ nm.position = m.position / 2 ∧
      nm.matchType = MatchType.regular := of_decide_eq_true hpred
  have hgd : ms.getD j default = nm := by
    rw [List.getD_eq_getElem?_getD, hj]
    rfl
  rw [hgd]
  cases hwin : (if m.player1.map (fun p => p.id) = some wid
      then m.player1 else m.player2) with
  | none =>
    left
    rfl
  | some w =>
  dsimp only
  by_cases hc1 : decide (m.position % 2 = 0) = true ∧ nm.player1 = none
  case pos =>
    rw [if_pos hc1]
    dsimp only
    by_cases hc3 : (some w).isSome = true ∧ nm.player2.isSome = true ∧
        nm.status = MatchStatus.pending
    case pos =>
      rw [if_pos hc3]
      exact Or.inr ⟨j, nm, _, hj, rfl, rfl, m, rfl, hprd.1⟩
    case neg =>
      rw [if_neg hc3]
      exact Or.inr ⟨j, nm, _, hj, rfl, rfl, m, rfl, hprd.1⟩
  case neg =>
  rw [if_neg hc1]
  by_cases hc2 : decide (m.position % 2 = 0) = false ∧ nm.player2 = none
  case pos =>
    rw [if_pos hc2]
    dsimp only
    by_cases hc3 : nm.player1.isSome = true ∧ (some w).isSome = true ∧
        nm.status = MatchStatus.pending
    case pos =>
      rw [if_pos hc3]
      exact Or.inr ⟨j, nm, _, hj, rfl, rfl, m, rfl, hprd.1⟩
    case neg =>
      rw [if_neg hc3]
      exact Or.inr ⟨j, nm, _, hj, rfl, rfl, m, rfl, hprd.1⟩
  case neg =>
    rw [if_neg hc2]
    dsimp only
    by_cases hc3 : nm.player1.isSome = true ∧ nm.player2.isSome = true ∧
        nm.status = MatchStatus.pending
    case pos =>
      rw [if_pos hc3]
      exact Or.inr ⟨j, nm, _, hj, rfl, rfl, m, rfl, hprd.1⟩
    case neg =>
      rw [if_neg hc3]
      left
      dsimp only
      rw [set_getElem?_self ms j nm hj]

theorem woStep_round_pointwise (ms : List BracketMatch) (i : Nat) (ch : Bool)
    (k : Nat) :
    Option.map BracketMatch.round ((woStep ms i ch).1[k]?) =
    Option.map BracketMatch.round ms[k]? := by
  rcases woStep_shape ms i ch with h | ⟨j, nm, x, hj, hset, hr, _⟩
  · rw [h]
  · rw [hset]
    by_cases hk : j = k
    · subst hk
      rw [List.getElem?_set_self (getElem?_some_lt hj), hj]
      simp [hr]
    · rw [List.getElem?_set_ne hk]

theorem woStep_round1_rows (ms : List BracketMatch) (i : Nat) (ch : Bool)
    (hall : ∀ (k : Nat) (m : BracketMatch), ms[k]? = some m → 1 ≤ m.round) (k : Nat)
    (m : BracketMatch) (hk : ms[k]? = some m) (h1 : m.round = 1) :
    (woStep ms i ch).1[k]? = some m := by
  rcases woStep_shape ms i ch with h | ⟨j, nm, x, hj, hset, hr, mi, hmi, hnm⟩
  · rw [h, hk]
  · rw [hset]
    have hjk : j ≠ k := by
      intro he
      subst he
      rw [hj] at hk
      injection hk with hk
      subst hk
      have := hall i mi hmi
      omega
    rw [List.getElem?_set_ne hjk, hk]

theorem woStep_roundsPos (ms : List BracketMatch) (i : Nat) (ch : Bool)
    (hall : ∀ (k : Nat) (m : BracketMatch), ms[k]? = some m → 1 ≤ m.round) :
    ∀ (k : Nat) (m : BracketMatch), (woStep ms i ch).1[k]? = some m → 1 ≤ m.round := by
  intro k m hk
  have hpt := woStep_round_pointwise ms i ch k
  rw [hk] at hpt
  cases hmk : ms[k]? with
  | none =>
    rw [hmk] at hpt
    simp at hpt
  | some m0 =>
    rw [hmk] at hpt
    simp only [Option.map_some'] at hpt
    injection hpt with hpt
    rw [hpt]
    exact hall k m0 hmk

theorem foldl_round1_rows (l : List Nat) (p : List BracketMatch × Bool)
    (hall : ∀ (k : Nat) (m : BracketMatch), p.1[k]? = some m → 1 ≤ m.round) :
    (∀ (k : Nat) (m : BracketMatch),
      (l.foldl (fun acc i => woStep acc.1 i acc.2) p).1[k]? = some m →
      1 ≤ m.round) ∧
    (∀ k : Nat, Option.map BracketMatch.round
        ((l.foldl (fun acc i => woStep acc.1 i acc.2) p).1[k]?) =
      Option.map BracketMatch.round (p.1[k]?)) ∧
    (∀ (k : Nat) (m : BracketMatch), p.1[k]? = some m → m.round = 1 →
      (l.foldl (fun acc i => woStep acc.1 i acc.2) p).1[k]? = some m) := by
  induction l generalizing p with
  | nil =>
    simp only [List.foldl_nil]
    exact ⟨hall, fun k => by simp, fun k m hk _ => hk⟩
  | cons a t ih =>
    simp only [List.foldl_cons]
    have hall2 := woStep_roundsPos p.1 a p.2 hall
    obtain ⟨ih1, ih2, ih3⟩ := ih (woStep p.1 a p.2) hall2
    refine ⟨ih1, ?_, ?_⟩
    · intro k
      exact (ih2 k).trans (woStep_round_pointwise p.1 a p.2 k)
    · intro k m hk h1
      exact ih3 k m (woStep_round1_rows p.1 a p.2 hall k m hk h1) h1

theorem woIter_round1_rows (fuel : Nat) (ms : List BracketMatch)
    (hall : ∀ (k : Nat) (m : BracketMatch), ms[k]? = some m → 1 ≤ m.round) :
    (∀ (k : Nat) (m : BracketMatch), (woIter fuel ms)[k]? = some m →
      1 ≤ m.round) ∧
    (∀ k : Nat, Option.map BracketMatch.round ((woIter fuel ms)[k]?) =
      Option.map BracketMatch.round (ms[k]?)) ∧
    (∀ (k : Nat) (m : BracketMatch), ms[k]? = some m → m.round = 1 →
      (woIter fuel ms)[k]? = some m) := by
  induction fuel generalizing ms with
  | zero =>
    simp only [woIter]
    exact ⟨hall, fun k => by simp, fun k m hk _ => hk⟩
  | succ n ih =>
    simp only [woIter]
    obtain ⟨p1, p2, p3⟩ := foldl_round1_rows (List.range ms.length) (ms, false) hall
    cases hp2 : (onePass ms).2 with
    | false =>
      simp only [Bool.false_eq_true, if_false]
      exact ⟨p1, p2, p3⟩
    | true =>
      rw [if_pos rfl]
      obtain ⟨q1, q2, q3⟩ := ih (onePass ms).1 p1
      refine ⟨q1, fun k => (q2 k).trans (p2 k), fun k m hk h1 => ?_⟩
      exact q3 k m (p3 k m hk h1) h1

theorem processWalkovers_round1 (ms : List BracketMatch)
    (hall : ∀ (k : Nat) (m : BracketMatch), ms[k]? = some m → 1 ≤ m.round) (m : BracketMatch)
    (hm : m ∈ processWalkovers ms) (h1 : m.round = 1) : m ∈ ms := by
  obtain ⟨k, hk⟩ := List.mem_iff_getElem?.mp hm
  obtain ⟨_, p2, p3⟩ := woIter_round1_rows (3 * ms.length + 1) ms hall
  have hk2 : (woIter (3 * ms.length + 1) ms)[k]? = some m := hk
  have hpt := p2 k
  rw [hk2] at hpt
  cases hmk : ms[k]? with
  | none =>
    rw [hmk] at hpt
    simp at hpt
  | some m0 =>
    rw [hmk] at hpt
    simp only [Option.map_some'] at hpt
    injection hpt with hpt
    have hm0 : m0.round = 1 := by rw [← hpt, h1]
    have hmm := (p3 k m0 hmk hm0).symm.trans hk2
    injection hmm with hmm
    rw [hmm] at hmk
    exact List.mem_iff_getElem?.mpr ⟨k, hmk⟩

theorem firstRound_round (seeds : List (Option Player × Nat))
    (bracketSize : Nat) (cfg : LegsConfig) (m : BracketMatch)
    (hm : m ∈ firstRoundMatches seeds bracketSize cfg) : m.round = 1 := by
  unfold firstRoundMatches at hm
  rcases List.mem_map.mp hm with ⟨x, _, hx⟩
  rw [← hx]

theorem laterRound_round (bracketSize : Nat) (cfg : LegsConfig)
    (m : BracketMatch) (hm : m ∈ laterRoundMatches bracketSize cfg) :
    2 ≤ m.round := by
  unfold laterRoundMatches at hm
  rcases List.mem_flatMap.mp hm with ⟨r, hr, hm2⟩
  rcases List.mem_map.mp hm2 with ⟨pos, _, hx⟩
  rw [← hx]
  exact (List.mem_range'_1.mp hr).1

theorem bronze_round (bracketSize : Nat) (cfg : LegsConfig) (be : Bool)
    (m : BracketMatch) (hm : m ∈ bronzeMatches bracketSize cfg be) :
    m.round = log2Nat bracketSize := by
  unfold bronzeMatches at hm
  split at hm
  · rcases List.mem_singleton.mp hm with h
    rw [h]
  · simp at hm

theorem makeCup_roundsPos (players : List Player) (bracketSize : Nat)
    (cfg : LegsConfig) (be : Bool) (gm : GameMode)
    (hsz : bracketSize = 4 ∨ bracketSize = 8 ∨ bracketSize = 16) :
    ∀ (k : Nat) (mm : BracketMatch),
      (makeCupMatches players bracketSize cfg be gm)[k]? = some mm →
      1 ≤ mm.round := by
  intro k mm hk
  have hmem : mm ∈ makeCupMatches players bracketSize cfg be gm :=
    List.mem_iff_getElem?.mpr ⟨k, hk⟩
  unfold makeCupMatches at hmem
  rcases List.mem_append.mp hmem with hab | hc
  · rcases List.mem_append.mp hab with ha | hb
    · rw [firstRound_round _ _ _ _ ha]
    · have := laterRound_round _ _ _ hb
      omega
  · have := bronze_round _ _ _ _ hc
    rcases hsz with h | h | h <;> rw [h] at this <;> rw [this] <;> decide

theorem round1_mem_firstRound (players : List Player) (bracketSize : Nat)
    (cfg : LegsConfig) (be : Bool) (gm : GameMode)
    (hsz : bracketSize = 4 ∨ bracketSize = 8 ∨ bracketSize = 16)
    (m : BracketMatch)
    (hm : m ∈ generateCupBracket players bracketSize cfg be gm)
    (h1 : m.round = 1) :
    m ∈ firstRoundMatches (seedList (sortByEloDesc gm players) bracketSize)
      bracketSize cfg := by
  have hm2 : m ∈ makeCupMatches players bracketSize cfg be gm :=
    processWalkovers_round1 _
      (makeCup_roundsPos players bracketSize cfg be gm hsz) m hm h1
  unfold makeCupMatches at hm2
  rcases List.mem_append.mp hm2 with hab | hc
  · rcases List.mem_append.mp hab with ha | hb
    · exact ha
    · have := laterRound_round _ _ _ hb
      omega
  · have := bronze_round _ _ _ _ hc
    rcases hsz with h | h | h <;> rw [h] at this <;> rw [this] at h1 <;>
      exact absurd h1 (by decide)

theorem findSeed_snd (seeds : List (Option Player × Nat)) (n : Nat) :
    (findSeed seeds n).2 = n := by
  unfold findSeed
  cases hf : seeds.find? (fun s => decide (s.2 = n)) with
  | none => rfl
  | some r =>
    have := List.find?_some hf
    simp only [Option.getD_some]
    exact of_decide_eq_true this

/-- C3 (amended): bracket generation is a pure function of the player list
and size (deterministic by construction; the source's random match ids are
excluded from the model), and for sizes 8 and 16 no round-1 match pairs
the players seeded 1 and 2 — the table instead pairs seed 1 with seed N
(see the counterexample to the claim as stated). -/
theorem generateCupBracket_no_1v2
    (players : List Player) (bracketSize : Nat) (cfg : LegsConfig)
    (be : Bool) (gm : GameMode)
    (hsz : bracketSize = 8 ∨ bracketSize = 16)
    (m : BracketMatch)
    (hm : m ∈ generateCupBracket players bracketSize cfg be gm)
    (h1 : m.round = 1) (s1 s2 : BracketSlot)
    (hp1 : m.player1 = some s1) (hp2 : m.player2 = some s2) :
    ¬((s1.seed = some 1 ∧ s2.seed = some 2) ∨
      (s1.seed = some 2 ∧ s2.seed = some 1)) := by
  have hf := round1_mem_firstRound players bracketSize cfg be gm
    (by rcases hsz with h | h <;> simp [h]) m hm h1
  unfold firstRoundMatches at hf
  rcases List.mem_map.mp hf with ⟨x, hx, hfx⟩
  have hab : x.2 ∈ seedingPattern bracketSize := List.snd_mem_of_mem_enum hx
  rw [← hfx] at hp1 hp2
  dsimp only at hp1 hp2
  cases hs1 : (findSeed (seedList (sortByEloDesc gm players) bracketSize)
      x.2.1).1 with
  | none =>
    rw [hs1] at hp1
    simp at hp1
  | some q1 =>
  cases hs2 : (findSeed (seedList (sortByEloDesc gm players) bracketSize)
      x.2.2).1 with
  | none =>
    rw [hs2] at hp2
    simp at hp2
  | some q2 =>
  rw [hs1] at hp1
  rw [hs2] at hp2
  simp only [Option.map_some', Option.some.injEq] at hp1 hp2
  have hseed1 : s1.seed = some x.2.1 := by
    rw [← hp1, findSeed_snd]
  have hseed2 : s2.seed = some x.2.2 := by
    rw [← hp2, findSeed_snd]
  intro hcon
  rcases hcon with ⟨ha, hb⟩ | ⟨ha, hb⟩
  · rw [hseed1] at ha
    rw [hseed2] at hb
    injection ha with ha
    injection hb with hb
    have hx2 : x.2 = (1, 2) := Prod.ext_iff.mpr ⟨ha, hb⟩
    rw [hx2] at hab
    rcases hsz with h | h <;> rw [h] at hab <;> exact absurd hab (by decide)
  · rw [hseed1] at ha
    rw [hseed2] at hb
    injection ha with ha
    injection hb with hb
    have hx2 : x.2 = (2, 1) := Prod.ext_iff.mpr ⟨ha, hb⟩
    rw [hx2] at hab
    rcases hsz with h | h <;> rw [h] at hab <;> exact absurd hab (by decide)

/-- C3 witness: in the concrete full 8-player bracket, the first round-1
match does not pair seeds 1 and 2. -/
theorem generateCupBracket_no_1v2_witness :
    ¬(((((generateCupBracket players8 8 cfgX false GameMode.m501).getD 0
          default).player1.getD default).seed = some 1 ∧
       ((((generateCupBracket players8 8 cfgX false GameMode.m501).getD 0
          default).player2.getD default).seed = some 2)) ∨
      (((((generateCupBracket players8 8 cfgX false GameMode.m501).getD 0
          default).player1.getD default).seed = some 2 ∧
       ((((generateCupBracket players8 8 cfgX false GameMode.m501).getD 0
          default).player2.getD default).seed = some 1)))) :=
  generateCupBracket_no_1v2 players8 8 cfgX false GameMode.m501 (Or.inl rfl)
    ((generateCupBracket players8 8 cfgX false GameMode.m501).getD 0 default)
    (by decide) (by decide) _ _ (by decide) (by decide)

/-- C3 counterexample: with a full 8-player field, the round-1 match at
position 0 pairs seed 1 with seed 8 = N, so seed 1 and seed N are paired
in round 1, contrary to the claim as stated. -/
theorem generateCupBracket_1_pairs_N :
    Option.map (fun m : BracketMatch => (m.round,
        m.player1.map BracketSlot.seed, m.player2.map BracketSlot.seed))
      ((generateCupBracket players8 8 cfgX false GameMode.m501)[0]?) =
      some (1, some (some 1), some (some 8)) := by
  decide

/-- C8 (amended): in every generated cup bracket, a round-1 match has
status `walkover` iff at least one of its two player slots is empty (with
fewer than half the bracket of real players both slots can be empty — see
the counterexample to "exactly one"), and a round-1 match with both slots
populated has status `ready`. -/
theorem generateCupBracket_walkover_iff
    (players : List Player) (bracketSize : Nat) (cfg : LegsConfig)
    (be : Bool) (gm : GameMode)
    (hsz : bracketSize = 4 ∨ bracketSize = 8 ∨ bracketSize = 16)
    (m : BracketMatch)
    (hm : m ∈ generateCupBracket players bracketSize cfg be gm)
    (h1 : m.round = 1) :
    (m.status = MatchStatus.walkover ↔
      (m.player1 = none ∨ m.player2 = none)) ∧
    (m.player1 ≠ none → m.player2 ≠ none →
      m.status = MatchStatus.ready) := by
  have hf := round1_mem_firstRound players bracketSize cfg be gm hsz m hm h1
  unfold firstRoundMatches at hf
  rcases List.mem_map.mp hf with ⟨x, hx, hfx⟩
  subst hfx
  cases hs1 : (findSeed (seedList (sortByEloDesc gm players) bracketSize)
      x.2.1).1 with
  | none =>
    cases hs2 : (findSeed (seedList (sortByEloDesc gm players) bracketSize)
        x.2.2).1 with
    | none => simp [hs1, hs2]
    | some q2 => simp [hs1, hs2]
  | some q1 =>
    cases hs2 : (findSeed (seedList (sortByEloDesc gm players) bracketSize)
        x.2.2).1 with
    | none => simp [hs1, hs2]
    | some q2 => simp [hs1, hs2]

/-- C8 witness: with 5 real players in an 8-bracket, the round-1 match at
position 0 (seed 1 against the seed-8 bye) has exactly one populated slot
and is a walkover. -/
theorem generateCupBracket_walkover_iff_witness :
    ((generateCupBracket players5 8 cfgX false GameMode.m501).getD 0
      default).status = MatchStatus.walkover ∧
    ((generateCupBracket players5 8 cfgX false GameMode.m501).getD 0
      default).player1 ≠ none ∧
    ((generateCupBracket players5 8 cfgX false GameMode.m501).getD 0
      default).player2 = none := by
  have h := (generateCupBracket_walkover_iff players5 8 cfgX false
    GameMode.m501 (Or.inr (Or.inl rfl))
    ((generateCupBracket players5 8 cfgX false GameMode.m501).getD 0 default)
    (by decide) (by decide)).1
  exact ⟨h.mpr (Or.inr (by decide)), by decide, by decide⟩

/-- C8 counterexample: a 16-bracket generated for only 3 selected players
contains a round-1 match (position 1, seeds 8 and 9) whose status is
`walkover` although neither of its two slots is populated — refuting
"walkover iff exactly one slot populated" over all selected player counts
and sizes. -/
theorem generateCupBracket_zero_slot_walkover :
    Option.map (fun m : BracketMatch =>
        (m.round, m.status, m.player1, m.player2))
      ((generateCupBracket players3 16 cfgX false GameMode.m501)[1]?) =
      some (1, MatchStatus.walkover, none, none) := by
  decide

theorem findIdx?_set_congr {α} (l : List α) (i : Nat) (x y : α)
    (p : α → Bool) (s : Nat) (hx : l[i]? = some x) (hpe : p x = p y) :
    List.findIdx? p (l.set i y) s = List.findIdx? p l s := by
  induction l generalizing i s with
  | nil => simp at hx
  | cons a t ih =>
    cases i with
    | zero =>
      simp only [List.getElem?_cons_zero, Option.some.injEq] at hx
      subst hx
      simp only [List.set_cons_zero, List.findIdx?_cons, hpe]
    | succ n =>
      simp only [List.getElem?_cons_succ] at hx
      simp only [List.set_cons_succ, List.findIdx?_cons, ih n (s + 1) hx]

/-- C9: when applying a group-match result completes every match of every
group of a 2-group round-robin tournament, `updateGroupMatch` populates
the knockout semifinals with fixed topology — semifinal 1 (round 1,
position 0) gets group A's rank 1 against group B's rank 2 and semifinal 2
(round 1, position 1) gets group B's rank 1 against group A's rank 2,
ranks taken from the stable sort by points then leg differential — marks
both semifinals `ready` and flips the tournament status to `knockout`. -/
theorem updateGroupMatch_knockout
    (t : Tournament) (groupId matchId winnerId : String) (score : LegScore)
    (groups : List TournamentGroup) (gi : Nat) (group : TournamentGroup)
    (mi : Nat) (gmatch : GroupMatch) (bracket : List BracketMatch)
    (k0 k1 : Nat) (sf0 sf1 : BracketMatch)
    (a1 a2 b1 b2 : GroupPlayer) (groupA groupB : TournamentGroup)
    (hgroups : t.groups = some groups)
    (hgi : groups.findIdx? (fun g => decide (g.id = groupId)) = some gi)
    (hgroup : groups[gi]? = some group)
    (hmi : group.«matches».findIdx?
      (fun m => decide (m.id = matchId)) = some mi)
    (hgm : group.«matches»[mi]? = some gmatch)
    (hbr : t.bracket = some bracket)
    (hgc : t.groupCount = some 2)
    (hall : (applyGroupUpdate groups gi mi group gmatch winnerId score).all
      (fun g => g.«matches».all fun mm =>
        decide (mm.status = MatchStatus.completed)) = true)
    (hA : (applyGroupUpdate groups gi mi group gmatch winnerId score)[0]? =
      some groupA)
    (hB : (applyGroupUpdate groups gi mi group gmatch winnerId score)[1]? =
      some groupB)
    (ha1 : (sortStandings groupA.players)[0]? = some a1)
    (ha2 : (sortStandings groupA.players)[1]? = some a2)
    (hb1 : (sortStandings groupB.players)[0]? = some b1)
    (hb2 : (sortStandings groupB.players)[1]? = some b2)
    (hk0 : bracket.findIdx?
      (fun m => decide (m.round = 1 ∧ m.position = 0)) = some k0)
    (hsf0 : bracket[k0]? = some sf0)
    (hk1 : bracket.findIdx?
      (fun m => decide (m.round = 1 ∧ m.position = 1)) = some k1)
    (hsf1 : bracket[k1]? = some sf1)
    (hk01 : k0 ≠ k1) :
    ∃ t2, updateGroupMatchPure t groupId matchId winnerId score = some t2 ∧
      t2.status = TournamentStatus.knockout ∧
      t2.groups =
        some (applyGroupUpdate groups gi mi group gmatch winnerId score) ∧
      ∃ br2, t2.bracket = some br2 ∧
        br2[k0]? = some { sf0 with player1 := some (slotOf a1)
                                   player2 := some (slotOf b2)
                                   status := MatchStatus.ready } ∧
        br2[k1]? = some { sf1 with player1 := some (slotOf b1)
                                   player2 := some (slotOf a2)
                                   status := MatchStatus.ready } := by
  have hone : setSF bracket 0 (slotOf a1) (slotOf b2) =
      bracket.set k0 { sf0 with player1 := some (slotOf a1)
                                player2 := some (slotOf b2)
                                status := MatchStatus.ready } := by
    unfold setSF
    simp only [hk0, hsf0]
  have htwo : setSF (bracket.set k0 { sf0 with
        player1 := some (slotOf a1)
        player2 := some (slotOf b2)
        status := MatchStatus.ready }) 1 (slotOf b1) (slotOf a2) =
      (bracket.set k0 { sf0 with
        player1 := some (slotOf a1)
        player2 := some (slotOf b2)
        status := MatchStatus.ready }).set k1 { sf1 with
        player1 := some (slotOf b1)
        player2 := some (slotOf a2)
        status := MatchStatus.ready } := by
    unfold setSF
    rw [findIdx?_set_congr bracket k0 sf0 { sf0 with
          player1 := some (slotOf a1)
          player2 := some (slotOf b2)
          status := MatchStatus.ready }
        (fun m => decide (m.round = 1 ∧ m.position = 1)) 0 hsf0 rfl]
    simp only [hk1, List.getElem?_set_ne hk01, hsf1]
  have hmain : updateGroupMatchPure t groupId matchId winnerId score =
      some { t with
        groups :=
          some (applyGroupUpdate groups gi mi group gmatch winnerId score)
        bracket := some (setSF (setSF bracket 0 (slotOf a1) (slotOf b2)) 1
          (slotOf b1) (slotOf a2))
        status := TournamentStatus.knockout } := by
    unfold updateGroupMatchPure
    simp only [hgroups, hgi, hgroup, hmi, hgm, hbr, hgc, hall, ha1, ha2,
      hb1, hb2, hA, hB]
    rw [if_pos trivial]
  refine ⟨_, hmain, rfl, rfl, _, rfl, ?_, ?_⟩
  · rw [hone, htwo, List.getElem?_set_ne (fun h => hk01 h.symm),
      List.getElem?_set_self (getElem?_some_lt hsf0)]
  · rw [hone, htwo,
      List.getElem?_set_self (by simpa using getElem?_some_lt hsf1)]

/-- C9 witness: completing group B's last match in the concrete 2-group
tournament seeds semifinal 1 with A1 against B2 and semifinal 2 with B1
against A2, both ready, and the tournament status becomes knockout. -/
theorem updateGroupMatch_knockout_witness :
    ∃ t2, updateGroupMatchPure tournRR "gb" "mb" "b1"
        { player1Legs := 2, player2Legs := 0 } = some t2 ∧
      t2.status = TournamentStatus.knockout ∧
      ∃ br2, t2.bracket = some br2 ∧
        Option.map (fun m : BracketMatch => (m.player1.map BracketSlot.id,
          m.player2.map BracketSlot.id, m.status)) br2[0]? =
          some (some "a1", some "b2", MatchStatus.ready) ∧
        Option.map (fun m : BracketMatch => (m.player1.map BracketSlot.id,
          m.player2.map BracketSlot.id, m.status)) br2[1]? =
          some (some "b1", some "a2", MatchStatus.ready) := by
  obtain ⟨t2, h1, h2, h3, br2, h4, h5, h6⟩ :=
    updateGroupMatch_knockout tournRR "gb" "mb" "b1"
      { player1Legs := 2, player2Legs := 0 }
      [grpA, grpB] 1 grpB 0
      { id := "mb", player1Id := "b1", player2Id := "b2"
        player1Name := "B1", player2Name := "B2", winnerId := none
        score := none, status := MatchStatus.ready }
      [sfEmpty, { sfEmpty with position := 1 },
        { sfEmpty with round := 2, legsToWin := 5 }]
      0 1 sfEmpty { sfEmpty with position := 1 }
      { id := "a1", name := "A1", played := 1, won := 1, lost := 0
        legsFor := 2, legsAgainst := 1, points := 2 }
      { id := "a2", name := "A2", played := 1, won := 0, lost := 1
        legsFor := 1, legsAgainst := 2, points := 0 }
      { id := "b1", name := "B1", played := 1, won := 1, lost := 0
        legsFor := 2, legsAgainst := 0, points := 2 }
      { id := "b2", name := "B2", played := 1, won := 0, lost := 1
        legsFor := 0, legsAgainst := 2, points := 0 }
      grpA
      { grpB with
        players :=
          [ { id := "b1", name := "B1", played := 1, won := 1, lost := 0
              legsFor := 2, legsAgainst := 0, points := 2 },
            { id := "b2", name := "B2", played := 1, won := 0, lost := 1
              legsFor := 0, legsAgainst := 2, points := 0 } ]
        «matches» :=
          [ { id := "mb", player1Id := "b1", player2Id := "b2"
              player1Name := "B1", player2Name := "B2"
              winnerId := some "b1"
              score := some { player1Legs := 2, player2Legs := 0 }
              status := MatchStatus.completed } ] }
      rfl (by decide) (by decide) (by decide) (by decide) rfl rfl
      (by decide) (by decide) (by decide) (by decide) (by decide)
      (by decide) (by decide) (by decide) (by decide) (by decide)
      (by decide) (by decide)
  refine ⟨t2, h1, h2, br2, h4, ?_, ?_⟩
  · rw [h5]
    decide
  · rw [h6]
    decide
